import Mathlib

/-!
# TdGame: `GameManager` (src/include/manager/game_manager.h)

A shallow embedding of the game manager of the tower-defence game: the tile
queries (`get_cursor_idx_tile`, `can_place_tower`, `get_selected_tile_center_pos`,
`check_home`), the input handler `on_input`, the per-frame `on_update`, and the
frame pacing of `run`.

Conventions of the embedding.

* C `int` values are mathematical integers (`Int`); `/` of C is truncating
  division, `Int.tdiv`.  Executions in which a signed addition overflows are
  undefined in C and are not modelled.  The conversion `(int)` of an unsigned
  size is defined in C and is modelled (`to_int`): it keeps the low 32 bits.
* `double` values (`delta`) are exact rationals.
* Calls into collaborators whose code is not part of this header (the manager
  singletons, the panels, the banner, SDL and SDL_mixer) are recorded, in
  program order, as a list of `Call`s; their effect on the state they own is a
  parameter of the model (`Collaborators`).
* An out-of-range `tile_map[y][x]` is undefined behaviour; functions that
  perform the lookup return `Option`, with `none` for that case.
-/

namespace TdGame

/-! ## Data model -/

/-- SDL's `SDL_Point`. -/
structure SDL_Point where
  x : Int
  y : Int
  deriving DecidableEq, Repr

/-- SDL's `SDL_Rect`. -/
structure SDL_Rect where
  x : Int
  y : Int
  w : Int
  h : Int
  deriving DecidableEq, Repr

/-- Modelled from the spec: the enumeration `Tile::Direction` is declared in a
header that is not part of the source tree; spec section 3 lists its values as
None, Up, Down, Left, Right and Home. -/
inductive Direction where
  | None
  | Up
  | Down
  | Left
  | Right
  | Home
  deriving DecidableEq, Repr

/-- Modelled from the spec: the struct `Tile` is declared in a header that is
not part of the source tree.  The fields are the ones `game_manager.h` reads
(`terrian`, `decoration`, `direction`, `has_tower`); a tile is decorated when
`decoration >= 0` (line 297 of the header draws the decoration exactly then). -/
structure Tile where
  terrian : Int
  decoration : Int
  direction : Direction
  has_tower : Bool
  deriving DecidableEq, Repr

/-- Modelled from the spec: the class `Map` is declared in a header that is not
part of the source tree.  The fields are the results of the accessors that
`game_manager.h` calls: `get_width()`, `get_height()` (unsigned sizes),
`get_tile_map()` (rows of tiles, indexed `[y][x]`) and `get_idx_home()`. -/
structure Map where
  get_width : Nat
  get_height : Nat
  get_tile_map : List (List Tile)
  get_idx_home : SDL_Point
  deriving DecidableEq, Repr

/-- The lookup `map.get_tile_map()[idx.y][idx.x]`; `none` when an index is
negative or past the end (undefined behaviour in the source). -/
def Map.tile_at (map : Map) (idx : SDL_Point) : Option Tile :=
  if 0 ≤ idx.y ∧ 0 ≤ idx.x then
    match map.get_tile_map.get? idx.y.toNat with
    | some row => row.get? idx.x.toNat
    | none => none
  else none

/-! ## Tile queries (lines 321-357) -/

/-- `GameManager::check_home` (lines 321-327). -/
def check_home (map : Map) (idx_tile_selected : SDL_Point) : Bool :=
  decide (map.get_idx_home.x = idx_tile_selected.x) &&
    decide (map.get_idx_home.y = idx_tile_selected.y)

/-- The conversion `(int)` of an unsigned size, as in `(int)map.get_width()`
(lines 262-263, 337-338): the low 32 bits of the value, read as a signed 32-bit
integer. -/
def to_int (n : Nat) : Int :=
  if n % 4294967296 < 2147483648 then ((n % 4294967296 : Nat) : Int)
  else ((n % 4294967296 : Nat) : Int) - 4294967296

/-- `GameManager::get_cursor_idx_tile` (lines 329-341).  The result is the
returned flag together with the value of the out-parameter `idx_tile_selected`
after the call (unchanged when the function returns `false`).  The last
disjunct of the guard compares `screen_y` with `rect_tile_map.x + rect_tile_map.h`,
as the source does; the clamps are `(int)map.get_width() - 1` and
`(int)map.get_height() - 1`. -/
def get_cursor_idx_tile (SIZE_TILE : Int) (map : Map) (rect_tile_map : SDL_Rect)
    (idx_tile_selected : SDL_Point) (screen_x screen_y : Int) : Bool × SDL_Point :=
  if screen_x < rect_tile_map.x ∨ screen_x > rect_tile_map.x + rect_tile_map.w ∨
      screen_y < rect_tile_map.y ∨ screen_y > rect_tile_map.x + rect_tile_map.h then
    (false, idx_tile_selected)
  else
    (true,
      { x := min ((screen_x - rect_tile_map.x).tdiv SIZE_TILE) (to_int map.get_width - 1)
        y := min ((screen_y - rect_tile_map.y).tdiv SIZE_TILE) (to_int map.get_height - 1) })

/-- `GameManager::can_place_tower` (lines 343-349); `none` when the tile lookup
is out of range. -/
def can_place_tower (map : Map) (idx_tile_selected : SDL_Point) : Option Bool :=
  match map.tile_at idx_tile_selected with
  | some tile =>
      some (decide (tile.decoration < 0) && decide (tile.direction = Direction.None) &&
        !tile.has_tower)
  | none => none

/-- `GameManager::get_selected_tile_center_pos` (lines 351-357): the value of
the out-parameter `pos` after the call. -/
def get_selected_tile_center_pos (SIZE_TILE : Int) (rect_tile_map : SDL_Rect)
    (idx_tile_selected : SDL_Point) : SDL_Point :=
  { x := rect_tile_map.x + idx_tile_selected.x * SIZE_TILE + SIZE_TILE.tdiv 2
    y := rect_tile_map.y + idx_tile_selected.y * SIZE_TILE + SIZE_TILE.tdiv 2 }

/-! ## Collaborators -/

/-- The keys of the sound pool that `on_update` looks up (`ResID::Sound_Win`,
`ResID::Sound_Loss`). -/
inductive ResID where
  | Sound_Win
  | Sound_Loss
  deriving DecidableEq, Repr

/-- The member `type` of `SDL_Event`, as far as `on_input` distinguishes it. -/
inductive EventType where
  | SDL_QUIT
  | SDL_MOUSEBUTTONDOWN
  | Other
  deriving DecidableEq, Repr

/-- The parts of `SDL_Event` that `on_input` reads: `event.type`,
`event.motion.x` and `event.motion.y`. -/
structure SDL_Event where
  type : EventType
  motion_x : Int
  motion_y : Int
  deriving DecidableEq, Repr

/-- A call from `GameManager` into a collaborator, with its arguments (the
renderer argument of the UI updates is left out).  `Mix_PlayChannel` carries the
key whose pool entry is played. -/
inductive Call where
  | StatusBar_on_update
  | PlacePanel_on_update
  | UpgradePanel_on_update
  | WaveManager_on_update (delta : ℚ)
  | EnemyManager_on_update (delta : ℚ)
  | CoinManager_on_update (delta : ℚ)
  | BulletManager_on_update (delta : ℚ)
  | TowerManager_on_update (delta : ℚ)
  | PlayerManager_on_update (delta : ℚ)
  | Mix_FadeOutMusic (ms : Int)
  | Mix_PlayChannel (channel : Int) (chunk : ResID) (loops : Int)
  | Banner_on_update (delta : ℚ)
  | UpgradePanel_set_idx_tile (idx : SDL_Point)
  | UpgradePanel_set_center_pos (pos : SDL_Point)
  | UpgradePanel_show
  | PlacePanel_set_idx_tile (idx : SDL_Point)
  | PlacePanel_set_center_pos (pos : SDL_Point)
  | PlacePanel_show
  | PlacePanel_on_input (event : SDL_Event)
  | UpgradePanel_on_input (event : SDL_Event)
  | PlayerManager_on_input (event : SDL_Event)
  | SDL_Delay (ms : ℚ)
  deriving DecidableEq

/-- The callee is the `on_update` of one of the six manager singletons. -/
def Call.is_manager_update : Call → Bool
  | .WaveManager_on_update _ => true
  | .EnemyManager_on_update _ => true
  | .CoinManager_on_update _ => true
  | .BulletManager_on_update _ => true
  | .TowerManager_on_update _ => true
  | .PlayerManager_on_update _ => true
  | _ => false

/-- The callee is an `on_update` member: of the status bar, of a panel, of a
manager singleton or of the banner. -/
def Call.is_on_update : Call → Bool
  | .StatusBar_on_update => true
  | .PlacePanel_on_update => true
  | .UpgradePanel_on_update => true
  | .WaveManager_on_update _ => true
  | .EnemyManager_on_update _ => true
  | .CoinManager_on_update _ => true
  | .BulletManager_on_update _ => true
  | .TowerManager_on_update _ => true
  | .PlayerManager_on_update _ => true
  | .Banner_on_update _ => true
  | _ => false

/-- The callee is SDL_mixer (the game-over cue: music fade-out and end sound). -/
def Call.is_audio : Call → Bool
  | .Mix_FadeOutMusic _ => true
  | .Mix_PlayChannel _ _ _ => true
  | _ => false

/-- The callee is one of the three calls that open the placement panel. -/
def Call.is_place_panel_open : Call → Bool
  | .PlacePanel_set_idx_tile _ => true
  | .PlacePanel_set_center_pos _ => true
  | .PlacePanel_show => true
  | _ => false

/-- The code outside `game_manager.h`, as a parameter.  `σ` is the state owned
by the singletons, the status bar and the two panels (it holds the
`ConfigManager` flags, map and rectangle that `GameManager` reads); `β` is the
state of the banner.  `exec c` is the effect of the call `c` on `σ`; the banner
and SDL_mixer keep their state to themselves, so their calls do not act on `σ`.
`SIZE_TILE` is the macro of that name. -/
structure Collaborators (σ β : Type) where
  SIZE_TILE : Int
  is_game_over : σ → Bool
  is_game_win : σ → Bool
  map : σ → Map
  rect_tile_map : σ → SDL_Rect
  exec : Call → σ → σ
  banner_on_update : ℚ → β → β
  check_end_dispaly : β → Bool

/-- The state `GameManager` itself keeps: the member `is_quit`, the
function-local statics of `on_input` (`pos_center`, `idx_tile_selected`) and of
`on_update` (`is_game_over_last_tick`), next to the collaborators' state. -/
structure World (σ β : Type) where
  is_quit : Bool
  pos_center : SDL_Point
  idx_tile_selected : SDL_Point
  is_game_over_last_tick : Bool
  game : σ
  banner : β

/-- Perform a sequence of collaborator calls, in order, on their state. -/
def run_calls {σ β : Type} (M : Collaborators σ β) (calls : List Call) (s : σ) : σ :=
  calls.foldl (fun acc c => M.exec c acc) s

/-- The call `a` occurs in the trace, and before the first occurrence of `b`. -/
def invoked_before (a b : Call) (trace : List Call) : Prop :=
  a ∈ trace ∧ b ∈ trace ∧ trace.indexOf a < trace.indexOf b

instance (a b : Call) (trace : List Call) : Decidable (invoked_before a b trace) := by
  unfold invoked_before; infer_instance

/-! ## `on_input` (lines 144-186) -/

/-- The `switch` statement of `GameManager::on_input` (lines 150-178): the new
state and the collaborator calls made, in order; `none` when `can_place_tower`
reads outside the tile map. -/
def on_input_switch {σ β : Type} (M : Collaborators σ β) (event : SDL_Event)
    (w : World σ β) : Option (World σ β × List Call) :=
  match event.type with
  | .SDL_QUIT => some ({ w with is_quit := true }, [])
  | .SDL_MOUSEBUTTONDOWN =>
      if M.is_game_over w.game then some (w, [])
      else
        let r := get_cursor_idx_tile M.SIZE_TILE (M.map w.game) (M.rect_tile_map w.game)
          w.idx_tile_selected event.motion_x event.motion_y
        if r.1 then
          let idx := r.2
          let pos := get_selected_tile_center_pos M.SIZE_TILE (M.rect_tile_map w.game) idx
          let w1 := { w with idx_tile_selected := idx, pos_center := pos }
          if check_home (M.map w.game) idx then
            let calls := [Call.UpgradePanel_set_idx_tile idx,
              Call.UpgradePanel_set_center_pos pos, Call.UpgradePanel_show]
            some ({ w1 with game := run_calls M calls w.game }, calls)
          else
            match can_place_tower (M.map w.game) idx with
            | none => none
            | some true =>
                let calls := [Call.PlacePanel_set_idx_tile idx,
                  Call.PlacePanel_set_center_pos pos, Call.PlacePanel_show]
                some ({ w1 with game := run_calls M calls w.game }, calls)
            | some false => some (w1, [])
        else some ({ w with idx_tile_selected := r.2 }, [])
  | .Other => some (w, [])

/-- `GameManager::on_input` (lines 144-186): the `switch`, then the forwarding
of the event to the panels and the player while the game is not over. -/
def on_input {σ β : Type} (M : Collaborators σ β) (event : SDL_Event)
    (w : World σ β) : Option (World σ β × List Call) :=
  match on_input_switch M event w with
  | none => none
  | some (w1, calls) =>
      if !M.is_game_over w1.game then
        let fwd := [Call.PlacePanel_on_input event, Call.UpgradePanel_on_input event,
          Call.PlayerManager_on_input event]
        some ({ w1 with game := run_calls M fwd w1.game }, calls ++ fwd)
      else some (w1, calls)

/-! ## `on_update` (lines 188-221) -/

/-- `GameManager::on_update` (lines 188-221): the new state and the collaborator
calls made, in order. -/
def on_update {σ β : Type} (M : Collaborators σ β) (delta : ℚ)
    (w : World σ β) : World σ β × List Call :=
  if !M.is_game_over w.game then
    let calls := [Call.StatusBar_on_update, Call.PlacePanel_on_update,
      Call.UpgradePanel_on_update, Call.WaveManager_on_update delta,
      Call.EnemyManager_on_update delta, Call.CoinManager_on_update delta,
      Call.BulletManager_on_update delta, Call.TowerManager_on_update delta,
      Call.PlayerManager_on_update delta]
    ({ w with game := run_calls M calls w.game }, calls)
  else
    let cue :=
      if !w.is_game_over_last_tick && M.is_game_over w.game then
        [Call.Mix_FadeOutMusic 1500,
          Call.Mix_PlayChannel (-1)
            (if M.is_game_win w.game then ResID.Sound_Win else ResID.Sound_Loss) 0]
      else []
    let banner := M.banner_on_update delta w.banner
    ({ w with
        is_game_over_last_tick := M.is_game_over w.game
        banner := banner
        is_quit := if M.check_end_dispaly banner then true else w.is_quit },
      cue ++ [Call.Banner_on_update delta])

/-- A sequence of frames.  Each frame comes with its `delta` and with the
collaborators' state that `on_update` finds when it is called (whatever input
handling and the earlier frames have left there); `GameManager`'s own state and
the banner are threaded from frame to frame, and the calls are collected. -/
def run_ticks {σ β : Type} (M : Collaborators σ β) :
    List (ℚ × σ) → World σ β → World σ β × List Call
  | [], w => (w, [])
  | (delta, s) :: rest, w =>
      let r := on_update M delta { w with game := s }
      let r2 := run_ticks M rest r.1
      (r2.1, r.2 ++ r2.2)

/-! ## Frame pacing in `run` (lines 44-51) -/

/-- The frame time of `run` (line 46): the difference of two readings of the
64-bit performance counter (unsigned, so modulo 2^64), divided by the counter
frequency, in seconds. -/
def run_delta (last_counter current_counter counter_freq : Nat) : ℚ :=
  (((current_counter + 2 ^ 64 - last_counter) % 2 ^ 64 : Nat) : ℚ) / (counter_freq : ℚ)

/-- The pacing of `run` (lines 50-51): the call to `SDL_Delay`, if one is made,
with the number of milliseconds as computed before the conversion to
`Uint32`. -/
def run_frame_pacing (delta : ℚ) : List Call :=
  if delta * 1000 > 1000 / 60 then [Call.SDL_Delay (1000 / 60 - delta * 1000)] else []

/-! ## A concrete instance

A small instance of the collaborators, used to evaluate the model: the
collaborators' state holds the two flags and a map, every manager call appends
itself to a log, and the banner is a frame counter that ends after three
updates. -/

/-- State of the concrete collaborators. -/
structure DemoGame where
  is_game_over : Bool
  is_game_win : Bool
  map : Map
  rect_tile_map : SDL_Rect
  log : List Call

/-- The concrete collaborators, with tiles of 48 pixels. -/
def demo : Collaborators DemoGame Nat where
  SIZE_TILE := 48
  is_game_over := fun s => s.is_game_over
  is_game_win := fun s => s.is_game_win
  map := fun s => s.map
  rect_tile_map := fun s => s.rect_tile_map
  exec := fun c s => { s with log := s.log ++ [c] }
  banner_on_update := fun _ b => b + 1
  check_end_dispaly := fun b => decide (3 ≤ b)

/-- A free tile: not decorated, off the path, no tower. -/
def tile_free : Tile :=
  { terrian := 0, decoration := -1, direction := Direction.None, has_tower := false }

/-- A tile that carries a tower. -/
def tile_tower : Tile :=
  { terrian := 0, decoration := -1, direction := Direction.None, has_tower := true }

/-- A path tile. -/
def tile_path : Tile :=
  { terrian := 0, decoration := -1, direction := Direction.Right, has_tower := false }

/-- A map of two rows of three tiles, home at (2, 1). -/
def demo_map : Map :=
  { get_width := 3
    get_height := 2
    get_tile_map := [[tile_free, tile_tower, tile_free], [tile_path, tile_path, tile_path]]
    get_idx_home := { x := 2, y := 1 } }

/-- The map rectangle of `demo_map` at the origin (100, 50). -/
def demo_rect : SDL_Rect := { x := 100, y := 50, w := 144, h := 96 }

/-- Collaborator state of a running game. -/
def demo_running : DemoGame :=
  { is_game_over := false, is_game_win := false, map := demo_map,
    rect_tile_map := demo_rect, log := [] }

/-- Collaborator state of a lost game. -/
def demo_lost : DemoGame := { demo_running with is_game_over := true }

/-- Collaborator state of a won game. -/
def demo_won : DemoGame := { demo_running with is_game_over := true, is_game_win := true }

/-- The state of `GameManager` at start-up. -/
def demo_world (s : DemoGame) : World DemoGame Nat :=
  { is_quit := false, pos_center := { x := 0, y := 0 }, idx_tile_selected := { x := 0, y := 0 },
    is_game_over_last_tick := false, game := s, banner := 0 }

/-- A rectangle for `demo_map` (three by two tiles of 48 pixels) whose origin
lies further down than to the right, as in a tall window. -/
def tall_rect : SDL_Rect := { x := 10, y := 200, w := 144, h := 96 }

/-- The game-over cue: the music fade-out followed by the end sound. -/
def game_over_cue (win : Bool) : List Call :=
  [Call.Mix_FadeOutMusic 1500,
    Call.Mix_PlayChannel (-1) (if win then ResID.Sound_Win else ResID.Sound_Loss) 0]

/-! ## Tile placement (C1, C5, C8) -/

theorem can_place_tower_of_tile (map : Map) (idx : SDL_Point) (tile : Tile)
    (h : map.tile_at idx = some tile) :
    can_place_tower map idx =
      some (decide (tile.decoration < 0) && decide (tile.direction = Direction.None) &&
        !tile.has_tower) := by
  simp [can_place_tower, h]

/-- C1: for every tile of the map, `can_place_tower` returns, and it returns
true if and only if the tile is not decorated (`decoration < 0`), its direction
is `None`, and `has_tower` is false. -/
theorem can_place_tower_iff (map : Map) (idx : SDL_Point) (tile : Tile)
    (h : map.tile_at idx = some tile) :
    ∃ b, can_place_tower map idx = some b ∧
      (b = true ↔
        (tile.decoration < 0 ∧ tile.direction = Direction.None ∧ tile.has_tower = false)) := by
  refine ⟨_, can_place_tower_of_tile map idx tile h, ?_⟩
  simp [and_assoc]

theorem can_place_tower_iff_witness :
    demo_map.tile_at { x := 0, y := 0 } = some tile_free ∧
    ∃ b, can_place_tower demo_map { x := 0, y := 0 } = some b ∧
      (b = true ↔
        (tile_free.decoration < 0 ∧ tile_free.direction = Direction.None ∧
          tile_free.has_tower = false)) :=
  ⟨by decide, can_place_tower_iff demo_map { x := 0, y := 0 } tile_free (by decide)⟩

theorem to_int_of_lt (n : Nat) (h : n < 2147483648) : to_int n = (n : Int) := by
  unfold to_int
  rw [if_pos (by omega)]
  omega

/-- C5: a tile whose `has_tower` is true is never placeable: `can_place_tower`
returns false for it, and the mouse-button branch of `on_input` for a click that
`get_cursor_idx_tile` resolves to that tile completes without calling
`set_idx_tile`, `set_center_pos` or `show` on the placement panel. -/
theorem place_on_tower_tile_rejected {σ β : Type} (M : Collaborators σ β)
    (event : SDL_Event) (w : World σ β) (idx : SDL_Point) (tile : Tile)
    (htile : (M.map w.game).tile_at idx = some tile)
    (htower : tile.has_tower = true) :
    can_place_tower (M.map w.game) idx = some false ∧
    (event.type = EventType.SDL_MOUSEBUTTONDOWN →
      get_cursor_idx_tile M.SIZE_TILE (M.map w.game) (M.rect_tile_map w.game)
        w.idx_tile_selected event.motion_x event.motion_y = (true, idx) →
      ∃ w1 calls, on_input_switch M event w = some (w1, calls) ∧
        ∀ c ∈ calls, c.is_place_panel_open = false) := by
  have hcan : can_place_tower (M.map w.game) idx = some false := by
    rw [can_place_tower_of_tile _ _ tile htile]
    simp [htower]
  refine ⟨hcan, fun htype hclick => ?_⟩
  unfold on_input_switch
  rw [htype]
  simp only [hclick, hcan]
  by_cases hover : M.is_game_over w.game = true
  · rw [if_pos hover]
    exact ⟨_, _, rfl, by simp⟩
  · rw [if_neg hover]
    by_cases hhome : check_home (M.map w.game) idx = true
    · simp only [hhome, if_true]
      exact ⟨_, _, rfl, by simp [Call.is_place_panel_open]⟩
    · simp only [hhome]
      exact ⟨_, _, rfl, by simp⟩

theorem place_on_tower_tile_rejected_witness :
    (demo.map (demo_world demo_running).game).tile_at { x := 1, y := 0 } = some tile_tower ∧
    tile_tower.has_tower = true ∧
    get_cursor_idx_tile demo.SIZE_TILE (demo.map (demo_world demo_running).game)
      (demo.rect_tile_map (demo_world demo_running).game)
      (demo_world demo_running).idx_tile_selected 150 60 = (true, { x := 1, y := 0 }) ∧
    can_place_tower (demo.map (demo_world demo_running).game) { x := 1, y := 0 } = some false ∧
    ∃ w1 calls,
      on_input_switch demo ⟨EventType.SDL_MOUSEBUTTONDOWN, 150, 60⟩ (demo_world demo_running)
        = some (w1, calls) ∧
      ∀ c ∈ calls, c.is_place_panel_open = false :=
  ⟨by decide, rfl, by decide,
    (place_on_tower_tile_rejected demo ⟨EventType.SDL_MOUSEBUTTONDOWN, 150, 60⟩
      (demo_world demo_running) { x := 1, y := 0 } tile_tower (by decide) rfl).1,
    (place_on_tower_tile_rejected demo ⟨EventType.SDL_MOUSEBUTTONDOWN, 150, 60⟩
      (demo_world demo_running) { x := 1, y := 0 } tile_tower (by decide) rfl).2 rfl
      (by decide)⟩

/-! ## Cursor and tile centre (C7) -/

theorem tdiv_two_bounds (S : Int) (hS : 0 < S) : 0 ≤ S.tdiv 2 ∧ S.tdiv 2 < S := by
  rw [Int.tdiv_eq_ediv (by omega) (by omega)]
  omega

theorem center_tdiv (S i : Int) (hS : 0 < S) (hi : 0 ≤ i) :
    (i * S + S.tdiv 2).tdiv S = i := by
  obtain ⟨h0, h1⟩ := tdiv_two_bounds S hS
  have hi' : 0 ≤ i * S := mul_nonneg hi (le_of_lt hS)
  rw [Int.tdiv_eq_ediv (by omega) (le_of_lt hS), add_comm,
    Int.add_mul_ediv_right _ _ (ne_of_gt hS), Int.ediv_eq_zero_of_lt h0 h1]
  simp

/-- The round trip from a tile to its centre and back does hold for the code as
written when the rectangle's `y` does not exceed its `x`, which is when the
guard's comparison of `screen_y` with `rect_tile_map.x + rect_tile_map.h` is
not stricter than the comparison with `rect_tile_map.y + rect_tile_map.h`. -/
theorem center_round_trip_of_y_le_x (SIZE_TILE : Int) (map : Map) (rect_tile_map : SDL_Rect)
    (idx0 : SDL_Point) (i j : Int)
    (hS : 0 < SIZE_TILE)
    (hw : rect_tile_map.w = to_int map.get_width * SIZE_TILE)
    (hh : rect_tile_map.h = to_int map.get_height * SIZE_TILE)
    (hi0 : 0 ≤ i) (hi1 : i < to_int map.get_width)
    (hj0 : 0 ≤ j) (hj1 : j < to_int map.get_height)
    (hyx : rect_tile_map.y ≤ rect_tile_map.x) :
    get_cursor_idx_tile SIZE_TILE map rect_tile_map idx0
      (get_selected_tile_center_pos SIZE_TILE rect_tile_map { x := i, y := j }).x
      (get_selected_tile_center_pos SIZE_TILE rect_tile_map { x := i, y := j }).y
      = (true, { x := i, y := j }) := by
  obtain ⟨h0, h1⟩ := tdiv_two_bounds SIZE_TILE hS
  have hiS : 0 ≤ i * SIZE_TILE := mul_nonneg hi0 (le_of_lt hS)
  have hjS : 0 ≤ j * SIZE_TILE := mul_nonneg hj0 (le_of_lt hS)
  have hiW : i * SIZE_TILE + SIZE_TILE ≤ to_int map.get_width * SIZE_TILE := by nlinarith
  have hjH : j * SIZE_TILE + SIZE_TILE ≤ to_int map.get_height * SIZE_TILE := by nlinarith
  unfold get_cursor_idx_tile get_selected_tile_center_pos
  simp only
  rw [if_neg (by rw [hw, hh]; omega)]
  have ex : rect_tile_map.x + i * SIZE_TILE + SIZE_TILE.tdiv 2 - rect_tile_map.x
      = i * SIZE_TILE + SIZE_TILE.tdiv 2 := by ring
  have ey : rect_tile_map.y + j * SIZE_TILE + SIZE_TILE.tdiv 2 - rect_tile_map.y
      = j * SIZE_TILE + SIZE_TILE.tdiv 2 := by ring
  rw [ex, ey, center_tdiv _ _ hS hi0, center_tdiv _ _ hS hj0,
    min_eq_left (by omega), min_eq_left (by omega)]

/-- C7 (evaluation at the failing input): on the three-by-two map with tiles of
48 pixels and the rectangle at (10, 200), the centre of tile (0, 0) is the
screen point (34, 224), and `get_cursor_idx_tile` at that point returns false
and leaves the out-parameter as it was. -/
theorem center_of_tile_not_found :
    (1 ≤ demo_map.get_width ∧ 1 ≤ demo_map.get_height ∧
      tall_rect.w = demo_map.get_width * 48 ∧ tall_rect.h = demo_map.get_height * 48) ∧
    get_selected_tile_center_pos 48 tall_rect { x := 0, y := 0 } = { x := 34, y := 224 } ∧
    get_cursor_idx_tile 48 demo_map tall_rect { x := 7, y := 7 } 34 224
      = (false, { x := 7, y := 7 }) := by
  decide

/-! ## Frame pacing (C6) -/

/-- Whenever `run` calls `SDL_Delay`, the number of milliseconds it computes is
negative: the call is made only for frames that took longer than 1/60 s. -/
theorem run_frame_pacing_negative (delta ms : ℚ)
    (h : Call.SDL_Delay ms ∈ run_frame_pacing delta) : ms < 0 := by
  unfold run_frame_pacing at h
  split at h
  · rename_i hlong
    simp at h
    subst h
    linarith
  · simp at h

/-- No delay is requested for a frame that took at most 1/60 s. -/
theorem run_frame_pacing_short (delta : ℚ) (h : delta ≤ 1 / 60) :
    run_frame_pacing delta = [] := by
  unfold run_frame_pacing
  rw [if_neg]
  intro hlong
  linarith

/-- C6 (evaluation at the failing input): with a counter of 1 GHz and two
readings 40 000 000 ticks apart the frame time is 1/25 s, and `run` then calls
`SDL_Delay` with 1000/60 - 40 = -70/3 milliseconds (before the conversion to
`Uint32`); for a frame that took 1/100 s it requests no delay. -/
theorem run_frame_pacing_long_frame :
    run_delta 5000000 45000000 1000000000 = 1 / 25 ∧
    run_frame_pacing (1 / 25) = [Call.SDL_Delay (-70 / 3)] ∧
    run_frame_pacing (1 / 100) = [] := by
  refine ⟨?_, ?_, ?_⟩
  · unfold run_delta
    norm_num
  · unfold run_frame_pacing
    rw [if_pos (by norm_num)]
    norm_num
  · exact run_frame_pacing_short _ (by norm_num)

/-! ## The per-frame update (C2, C3, C4) -/

theorem on_update_running {σ β : Type} (M : Collaborators σ β) (delta : ℚ) (w : World σ β)
    (hrun : M.is_game_over w.game = false) :
    on_update M delta w =
      ({ w with game := run_calls M [Call.StatusBar_on_update, Call.PlacePanel_on_update,
          Call.UpgradePanel_on_update, Call.WaveManager_on_update delta,
          Call.EnemyManager_on_update delta, Call.CoinManager_on_update delta,
          Call.BulletManager_on_update delta, Call.TowerManager_on_update delta,
          Call.PlayerManager_on_update delta] w.game },
        [Call.StatusBar_on_update, Call.PlacePanel_on_update,
          Call.UpgradePanel_on_update, Call.WaveManager_on_update delta,
          Call.EnemyManager_on_update delta, Call.CoinManager_on_update delta,
          Call.BulletManager_on_update delta, Call.TowerManager_on_update delta,
          Call.PlayerManager_on_update delta]) := by
  simp [on_update, hrun]

theorem on_update_over {σ β : Type} (M : Collaborators σ β) (delta : ℚ) (w : World σ β)
    (hover : M.is_game_over w.game = true) :
    on_update M delta w =
      ({ w with
          is_game_over_last_tick := true
          banner := M.banner_on_update delta w.banner
          is_quit := if M.check_end_dispaly (M.banner_on_update delta w.banner) then true
            else w.is_quit },
        (if w.is_game_over_last_tick = false then
          [Call.Mix_FadeOutMusic 1500,
            Call.Mix_PlayChannel (-1)
              (if M.is_game_win w.game then ResID.Sound_Win else ResID.Sound_Loss) 0]
        else []) ++ [Call.Banner_on_update delta]) := by
  cases hl : w.is_game_over_last_tick <;> simp [on_update, hover, hl]

/-- C2: in every state in which `is_game_over` is true and for every `delta`,
`on_update` calls none of the Wave, Enemy, Coin, Bullet, Tower and Player
manager updates and leaves the collaborators' state as it was; the only
`on_update` it calls is the banner's, once, which advances the banner by
`delta`; and it sets `is_quit` to true exactly when the advanced banner reports
that its display has ended (otherwise `is_quit` keeps its value). -/
theorem on_update_game_over_frozen {σ β : Type} (M : Collaborators σ β) (delta : ℚ)
    (w : World σ β) (hover : M.is_game_over w.game = true) :
    (∀ c ∈ (on_update M delta w).2, c.is_manager_update = false) ∧
    (on_update M delta w).1.game = w.game ∧
    (on_update M delta w).2.filter Call.is_on_update = [Call.Banner_on_update delta] ∧
    (on_update M delta w).1.banner = M.banner_on_update delta w.banner ∧
    (M.check_end_dispaly (on_update M delta w).1.banner = true →
      (on_update M delta w).1.is_quit = true) ∧
    (M.check_end_dispaly (on_update M delta w).1.banner = false →
      (on_update M delta w).1.is_quit = w.is_quit) := by
  rw [on_update_over M delta w hover]
  refine ⟨?_, rfl, ?_, rfl, ?_, ?_⟩
  · intro c hc
    cases hl : w.is_game_over_last_tick
    · simp [hl] at hc
      rcases hc with h | h | h <;> subst h <;> rfl
    · simp [hl] at hc
      subst hc
      rfl
  · cases hl : w.is_game_over_last_tick <;> simp [Call.is_on_update]
  · intro h
    simp only at h ⊢
    rw [if_pos h]
  · intro h
    simp only at h ⊢
    rw [if_neg (by simp [h])]

theorem on_update_game_over_frozen_witness :
    demo.is_game_over (demo_world demo_lost).game = true ∧
    (∀ c ∈ (on_update demo (1 / 60) (demo_world demo_lost)).2, c.is_manager_update = false) ∧
    (on_update demo (1 / 60) (demo_world demo_lost)).1.game = (demo_world demo_lost).game ∧
    (on_update demo (1 / 60) (demo_world demo_lost)).2.filter Call.is_on_update
      = [Call.Banner_on_update (1 / 60)] ∧
    (on_update demo (1 / 60) (demo_world demo_lost)).1.banner
      = demo.banner_on_update (1 / 60) (demo_world demo_lost).banner ∧
    (demo.check_end_dispaly (on_update demo (1 / 60) (demo_world demo_lost)).1.banner = true →
      (on_update demo (1 / 60) (demo_world demo_lost)).1.is_quit = true) ∧
    (demo.check_end_dispaly (on_update demo (1 / 60) (demo_world demo_lost)).1.banner = false →
      (on_update demo (1 / 60) (demo_world demo_lost)).1.is_quit
        = (demo_world demo_lost).is_quit) :=
  ⟨rfl, on_update_game_over_frozen demo (1 / 60) (demo_world demo_lost) rfl⟩

/-- C3 (as stated, refuted): in a running game the tower update is not invoked
before the bullet update. -/
theorem tower_not_before_bullet :
    demo.is_game_over (demo_world demo_running).game = false ∧
    ¬ invoked_before (Call.TowerManager_on_update (1 / 60))
        (Call.BulletManager_on_update (1 / 60))
        (on_update demo (1 / 60) (demo_world demo_running)).2 := by
  refine ⟨rfl, ?_⟩
  rw [on_update_running demo (1 / 60) (demo_world demo_running) rfl]
  simp [invoked_before, List.indexOf_cons]

/-- C3 (amended): for every tick with `is_game_over` false, `on_update` advances
the subsystems in a fixed order: Wave Scheduler first, then the Enemy
subsystem, then the Projectile (bullet) subsystem, then the Tower subsystem (the
manager updates are, in order, Wave, Enemy, Coin, Bullet, Tower, Player); in
particular the bullet update is invoked before the tower update. -/
theorem on_update_running_order {σ β : Type} (M : Collaborators σ β) (delta : ℚ)
    (w : World σ β) (hrun : M.is_game_over w.game = false) :
    (on_update M delta w).2.filter Call.is_manager_update =
      [Call.WaveManager_on_update delta, Call.EnemyManager_on_update delta,
        Call.CoinManager_on_update delta, Call.BulletManager_on_update delta,
        Call.TowerManager_on_update delta, Call.PlayerManager_on_update delta] ∧
    invoked_before (Call.WaveManager_on_update delta) (Call.EnemyManager_on_update delta)
      (on_update M delta w).2 ∧
    invoked_before (Call.EnemyManager_on_update delta) (Call.BulletManager_on_update delta)
      (on_update M delta w).2 ∧
    invoked_before (Call.BulletManager_on_update delta) (Call.TowerManager_on_update delta)
      (on_update M delta w).2 ∧
    (on_update M delta w).1.game = run_calls M (on_update M delta w).2 w.game := by
  rw [on_update_running M delta w hrun]
  refine ⟨?_, ?_, ?_, ?_, rfl⟩
  · simp [Call.is_manager_update]
  · simp [invoked_before, List.indexOf_cons]
  · simp [invoked_before, List.indexOf_cons]
  · simp [invoked_before, List.indexOf_cons]

theorem on_update_running_order_witness :
    demo.is_game_over (demo_world demo_running).game = false ∧
    ((on_update demo (1 / 60) (demo_world demo_running)).2.filter Call.is_manager_update =
      [Call.WaveManager_on_update (1 / 60), Call.EnemyManager_on_update (1 / 60),
        Call.CoinManager_on_update (1 / 60), Call.BulletManager_on_update (1 / 60),
        Call.TowerManager_on_update (1 / 60), Call.PlayerManager_on_update (1 / 60)] ∧
    invoked_before (Call.WaveManager_on_update (1 / 60)) (Call.EnemyManager_on_update (1 / 60))
      (on_update demo (1 / 60) (demo_world demo_running)).2 ∧
    invoked_before (Call.EnemyManager_on_update (1 / 60)) (Call.BulletManager_on_update (1 / 60))
      (on_update demo (1 / 60) (demo_world demo_running)).2 ∧
    invoked_before (Call.BulletManager_on_update (1 / 60)) (Call.TowerManager_on_update (1 / 60))
      (on_update demo (1 / 60) (demo_world demo_running)).2 ∧
    (on_update demo (1 / 60) (demo_world demo_running)).1.game
      = run_calls demo (on_update demo (1 / 60) (demo_world demo_running)).2
          (demo_world demo_running).game) :=
  ⟨rfl, on_update_running_order demo (1 / 60) (demo_world demo_running) rfl⟩

/-! ### The game-over cue over a run of frames (C4) -/

theorem run_ticks_append {σ β : Type} (M : Collaborators σ β) (a b : List (ℚ × σ))
    (w : World σ β) :
    run_ticks M (a ++ b) w =
      ((run_ticks M b (run_ticks M a w).1).1,
        (run_ticks M a w).2 ++ (run_ticks M b (run_ticks M a w).1).2) := by
  induction a generalizing w with
  | nil => simp [run_ticks]
  | cons t rest ih =>
      obtain ⟨delta, s⟩ := t
      simp [run_ticks, ih, List.append_assoc]

theorem run_ticks_running {σ β : Type} (M : Collaborators σ β) (pre : List (ℚ × σ))
    (w : World σ β) (hpre : ∀ t ∈ pre, M.is_game_over t.2 = false) :
    (run_ticks M pre w).1.is_game_over_last_tick = w.is_game_over_last_tick ∧
    (run_ticks M pre w).2.filter Call.is_audio = [] := by
  induction pre generalizing w with
  | nil => simp [run_ticks]
  | cons t rest ih =>
      obtain ⟨delta, s⟩ := t
      have hs : M.is_game_over s = false := hpre (delta, s) (List.mem_cons_self _ _)
      have hrest : ∀ t ∈ rest, M.is_game_over t.2 = false :=
        fun t ht => hpre t (List.mem_cons_of_mem _ ht)
      have hstep := on_update_running M delta { w with game := s } hs
      simp only [run_ticks, hstep, List.filter_append]
      obtain ⟨h1, h2⟩ := ih _ hrest
      refine ⟨h1, ?_⟩
      rw [h2]
      simp [Call.is_audio]

theorem run_ticks_over {σ β : Type} (M : Collaborators σ β) (post : List (ℚ × σ))
    (w : World σ β) (hlast : w.is_game_over_last_tick = true)
    (hpost : ∀ t ∈ post, M.is_game_over t.2 = true) :
    (run_ticks M post w).2.filter Call.is_audio = [] := by
  induction post generalizing w with
  | nil => simp [run_ticks]
  | cons t rest ih =>
      obtain ⟨delta, s⟩ := t
      have hs : M.is_game_over s = true := hpost (delta, s) (List.mem_cons_self _ _)
      have hrest : ∀ t ∈ rest, M.is_game_over t.2 = true :=
        fun t ht => hpost t (List.mem_cons_of_mem _ ht)
      have hstep := on_update_over M delta { w with game := s } hs
      simp only [run_ticks, hstep, List.filter_append]
      rw [ih _ rfl hrest]
      simp [hlast, Call.is_audio]

theorem on_update_first_over {σ β : Type} (M : Collaborators σ β) (delta : ℚ)
    (w : World σ β) (hlast : w.is_game_over_last_tick = false)
    (hover : M.is_game_over w.game = true) :
    (on_update M delta w).1.is_game_over_last_tick = true ∧
    (on_update M delta w).2.filter Call.is_audio = game_over_cue (M.is_game_win w.game) := by
  rw [on_update_over M delta w hover]
  simp [hlast, Call.is_audio, game_over_cue]

/-- C4: over every sequence of `on_update` ticks that starts with
`is_game_over_last_tick = false` and in which `is_game_over` is false up to some
tick and true from that tick on, the game-over cue (music fade-out plus end
sound) is fired exactly once: no SDL_mixer call is made before the first tick
that observes `is_game_over`, that tick makes the two calls, with the win sound
if `is_game_win` is true there and the loss sound otherwise, and the ticks
after it add none. -/
theorem game_over_cue_fired_once {σ β : Type} (M : Collaborators σ β)
    (pre post : List (ℚ × σ)) (first : ℚ × σ) (w : World σ β)
    (hinit : w.is_game_over_last_tick = false)
    (hpre : ∀ t ∈ pre, M.is_game_over t.2 = false)
    (hfirst : M.is_game_over first.2 = true)
    (hpost : ∀ t ∈ post, M.is_game_over t.2 = true) :
    (run_ticks M pre w).2.filter Call.is_audio = [] ∧
    (run_ticks M (pre ++ [first]) w).2.filter Call.is_audio
      = game_over_cue (M.is_game_win first.2) ∧
    (run_ticks M (pre ++ first :: post) w).2.filter Call.is_audio
      = game_over_cue (M.is_game_win first.2) := by
  obtain ⟨delta, s⟩ := first
  obtain ⟨hl, hnone⟩ := run_ticks_running M pre w hpre
  obtain ⟨hl1, hcue⟩ := on_update_first_over M delta
    { (run_ticks M pre w).1 with game := s } (by simpa [hinit] using hl) hfirst
  have hafter := run_ticks_over M post _ hl1 hpost
  refine ⟨hnone, ?_, ?_⟩
  · rw [run_ticks_append]
    simp only [run_ticks, List.filter_append, hnone, hcue]
    simp
  · rw [run_ticks_append]
    simp only [run_ticks, List.filter_append, hnone, hcue, hafter]
    simp

theorem game_over_cue_fired_once_witness :
    (demo_world demo_running).is_game_over_last_tick = false ∧
    demo.is_game_over demo_running = false ∧
    demo.is_game_over demo_won = true ∧
    (run_ticks demo [(1 / 60, demo_running)] (demo_world demo_running)).2.filter Call.is_audio
      = [] ∧
    (run_ticks demo ([(1 / 60, demo_running)] ++ [(1 / 50, demo_won)])
        (demo_world demo_running)).2.filter Call.is_audio
      = game_over_cue true ∧
    (run_ticks demo ([(1 / 60, demo_running)] ++ (1 / 50, demo_won) :: [(1 / 40, demo_won)])
        (demo_world demo_running)).2.filter Call.is_audio
      = game_over_cue true :=
  ⟨rfl, rfl, rfl,
    game_over_cue_fired_once demo [(1 / 60, demo_running)] [(1 / 40, demo_won)]
      (1 / 50, demo_won) (demo_world demo_running) rfl
      (by intro t ht; simp at ht; subst ht; rfl) rfl
      (by intro t ht; simp at ht; subst ht; rfl)⟩

end TdGame
